import Mathlib

/-!
Verification development for the `gqlalchemy` transformations module
(`src/gqlalchemy/transformations.py`): translation of a NetworkX-style
graph into Cypher creation statements, and the partitioned parallel
loader with its per-statement retry policy.

The embedding is shallow: Python dicts become insertion-ordered
association lists (`Dict`), the graph becomes explicit node/edge lists
in iteration order, in-place mutation of attribute dicts becomes
explicit state passing (each generator returns the statements together
with the post-generation graph), and the worker loop of
`_insert_queries` becomes a fueled trace-producing function plus a
small-step relation for the phase-ordering property.

The helpers `to_cypher_labels` and `to_cypher_properties` live in
`gqlalchemy/utilities.py`, which is not part of the sources here; they
are modelled from the spec (section 4.1) and marked as such.
-/

namespace GqlAlchemy

/-- Primitive attribute values stored in node/edge attribute mappings:
a string, an integer, or a list of label strings (the `labels`
attribute may hold one label or an ordered list of labels). -/
inductive Value where
  | str (s : String)
  | int (n : Int)
  | strList (ss : List String)
deriving DecidableEq

/-- A Python dict as an insertion-ordered association list with unique
keys (lookup returns the first binding; Python dict iteration order is
insertion order). -/
abbrev Dict := List (String × Value)

/-- Python `d.get(k)` / `d[k]` lookup: the first binding for `k`. -/
def dictGet? (d : Dict) (k : String) : Option Value :=
  (d.find? (fun kv => kv.1 == k)).map (fun kv => kv.2)

/-- Python `d.get(k, default)`. -/
def dictGet (d : Dict) (k : String) (default : Value) : Value :=
  (dictGet? d k).getD default

/-- Python `k in d`. -/
def dictContains (d : Dict) (k : String) : Bool :=
  (dictGet? d k).isSome

/-- Python `d[k] = v`: overwrite in place if the key exists, else
append the new binding at the end (insertion order). -/
def dictSet (d : Dict) (k : String) (v : Value) : Dict :=
  if dictContains d k then d.map (fun kv => if kv.1 == k then (k, v) else kv)
  else d ++ [(k, v)]

/-- Python `d.pop(k, None)` restricted to its effect on the dict:
remove the binding for `k` if present. -/
def dictPop (d : Dict) (k : String) : Dict :=
  d.filter (fun kv => !(kv.1 == k))

/-- The NetworkX-style input graph: nodes as (identifier, attribute
dict) in native iteration order, edges as (source, target, attribute
dict) in native iteration order.  Attribute dicts are the mutable state
that `_create_node` / `_create_edge` update in place in the source. -/
structure Graph where
  nodes : List (Int × Dict)
  edges : List (Int × Int × Dict)
deriving DecidableEq

/-- NetworkX `graph.nodes[i]`: the attribute dict of node `i` (empty
when `i` is not a node of the graph; in NetworkX edge endpoints are
always nodes, so that case does not arise on well-formed input). -/
def Graph.nodeAttrs (g : Graph) (i : Int) : Dict :=
  ((g.nodes.find? (fun p => p.1 == i)).map (fun p => p.2)).getD []

/-- Modelled from the spec: `encode_labels` of `gqlalchemy.utilities`
(`to_cypher_labels` in the source, absent from src/).  A single label
string or an ordered list of label strings becomes concatenated `:L`
markers, order-preserving, with the empty label encoding to the empty
fragment. -/
def to_cypher_labels : Value → String
  | Value.str s => if s = "" then "" else ":" ++ s
  | Value.strList ss => String.join (ss.map (fun s => ":" ++ s))
  | Value.int n => ":" ++ toString n

/-- Modelled from the spec: encoding of one primitive property value
inside a property-map literal. -/
def encodeValue : Value → String
  | Value.str s => "\x22" ++ s ++ "\x22"
  | Value.int n => toString n
  | Value.strList ss =>
      "[" ++ String.intercalate (", ") (ss.map (fun s => "\x22" ++ s ++ "\x22")) ++ "]"

/-- Modelled from the spec: `encode_properties` of
`gqlalchemy.utilities` (`to_cypher_properties` in the source, absent
from src/).  A key-value mapping becomes a property-map literal in the
mapping's iteration order; the empty mapping encodes to the empty
fragment. -/
def to_cypher_properties (d : Dict) : String :=
  if d.isEmpty then ""
  else "\x7b" ++ String.intercalate (", ") (d.map (fun kv => kv.1 ++ ": " ++ encodeValue kv.2)) ++ "\x7d"

/-- Lines 95-96 of `_create_node`: if the attribute dict lacks an `id`
key, the node's own identifier is written into it (an in-place update
of the caller's dict in the source). -/
def nodeProps (nxId : Int) (properties : Dict) : Dict :=
  if dictContains properties ("id") then properties
  else dictSet properties ("id") (Value.int nxId)

/-- Line 98 of `_create_node`: the dict that is handed to the property
encoder, i.e. the (possibly id-injected) attributes without the
reserved `labels` key. -/
def nodeEncodedProps (nxId : Int) (properties : Dict) : Dict :=
  (nodeProps nxId properties).filter (fun kv => !(kv.1 == "labels"))

/-- `_create_node` (lines 93-101): returns the Cypher statement and the
attribute dict as left behind by the in-place `id` injection. -/
def _create_node (nxId : Int) (properties : Dict) : String × Dict :=
  ("CREATE (" ++ to_cypher_labels (dictGet (nodeProps nxId properties) ("labels") (Value.str ("")))
    ++ " " ++ to_cypher_properties (nodeEncodedProps nxId properties) ++ ");",
   nodeProps nxId properties)

/-- Line 112 of `_create_edge`: the relationship-type value, the edge's
`type` attribute with default `"TO"`, read before the `pop`. -/
def edgeType (properties : Dict) : Value :=
  dictGet properties ("type") (Value.str ("TO"))

/-- Lines 113-114 of `_create_edge`: the dict handed to the property
encoder, i.e. the edge attributes after `pop`-ping the reserved `type`
key (an in-place removal in the source). -/
def edgeEncodedProps (properties : Dict) : Dict :=
  dictPop properties ("type")

/-- `_create_edge` (lines 104-118): returns the Cypher statement and
the edge attribute dict as left behind by the in-place `pop`. -/
def _create_edge (fromId toId : Int) (fromLabel toLabel : Value) (properties : Dict) :
    String × Dict :=
  ("MATCH (n" ++ to_cypher_labels fromLabel ++ " \x7bid: " ++ toString fromId
    ++ "\x7d), (m" ++ to_cypher_labels toLabel ++ " \x7bid: " ++ toString toId
    ++ "\x7d) CREATE (n)-[" ++ to_cypher_labels (edgeType properties) ++ " "
    ++ to_cypher_properties (edgeEncodedProps properties) ++ "]->(m);",
   edgeEncodedProps properties)

/-- `_nx_nodes_to_cypher` (lines 79-82): one statement per node in the
graph's iteration order; the returned graph carries the id-injected
node dicts (the source mutates them in place). -/
def _nx_nodes_to_cypher (g : Graph) : List String × Graph :=
  (g.nodes.map (fun p => (_create_node p.1 p.2).1),
   { g with nodes := g.nodes.map (fun p => (p.1, (_create_node p.1 p.2).2)) })

/-- One edge of `_nx_edges_to_cypher`'s loop body (lines 87-90): the
endpoint labels are looked up from the nodes' `labels` attribute (with
default `""`) at generation time. -/
def edgeStep (g : Graph) (e : Int × Int × Dict) : String × Dict :=
  _create_edge e.1 e.2.1
    (dictGet (g.nodeAttrs e.1) ("labels") (Value.str ("")))
    (dictGet (g.nodeAttrs e.2.1) ("labels") (Value.str ("")))
    e.2.2

/-- `_nx_edges_to_cypher` (lines 85-90): one statement per edge in
iteration order; the returned graph carries the `type`-popped edge
dicts. -/
def _nx_edges_to_cypher (g : Graph) : List String × Graph :=
  (g.edges.map (fun e => (edgeStep g e).1),
   { g with edges := g.edges.map (fun e => (e.1, e.2.1, (edgeStep g e).2)) })

/-- `nx_to_cypher` (lines 33-37): all node statements, then all edge
statements; the returned graph is the input graph after both passes'
in-place mutations. -/
def nx_to_cypher (g : Graph) : List String × Graph :=
  ((_nx_nodes_to_cypher g).1 ++ (_nx_edges_to_cypher (_nx_nodes_to_cypher g).2).1,
   (_nx_edges_to_cypher (_nx_nodes_to_cypher g).2).2)

/-- Observable events of one worker process (`_insert_queries`,
lines 61-76): opening its connection, executing a statement
(`cursor.execute`), logging the warning for a caught
`mgclient.DatabaseError`, and committing. -/
inductive Ev where
  | connect
  | exec (q : String)
  | warn (q : String)
  | commit
deriving DecidableEq

/-- Python `list.pop()` with no index: removes and returns the LAST
element (`none` on the empty list). -/
def pyPop : List String → Option (String × List String)
  | [] => none
  | [a] => some (a, [])
  | a :: b :: rest =>
    match pyPop (b :: rest) with
    | some (x, r) => some (x, a :: r)
    | none => none

/-- The `while len(queries) > 0` loop of `_insert_queries` (lines
64-76), fueled by the number of iterations still observed: each
iteration pops the last statement and executes it; on a
database-reported error (`fail k = true` for the k-th execution) the
statement is appended back at the end of the list, a warning is logged,
the commit is skipped and the loop continues; otherwise the execution
is committed.  Returns the event trace of the observed iterations and
the remaining list (so exhausted fuel means a truncated observation,
not termination). -/
def insertLoop (fail : Nat → Bool) : Nat → List String → Nat → List Ev × List String
  | 0, queries, _ => ([], queries)
  | fuel + 1, queries, k =>
    match pyPop queries with
    | none => ([], queries)
    | some (q, rest) =>
      if fail k then
        (Ev.exec q :: Ev.warn q :: (insertLoop fail fuel (rest ++ [q]) (k + 1)).1,
         (insertLoop fail fuel (rest ++ [q]) (k + 1)).2)
      else
        (Ev.exec q :: Ev.commit :: (insertLoop fail fuel rest (k + 1)).1,
         (insertLoop fail fuel rest (k + 1)).2)

/-- `_insert_queries` (lines 61-76): connect, then run the loop. -/
def _insert_queries (fuel : Nat) (queries : List String) (fail : Nat → Bool) : List Ev :=
  Ev.connect :: (insertLoop fail fuel queries 0).1

/-- The sequence of statements a trace actually executed, in order. -/
def execSeq (tr : List Ev) : List String :=
  tr.filterMap (fun e => match e with | Ev.exec q => some q | _ => none)

/-- Python errors that can escape `nx_graph_to_memgraph_parallel`. -/
inductive PyError where
  | zeroDivision
deriving DecidableEq

/-- Python integer division, which raises `ZeroDivisionError` on a zero
divisor (Lean's `Nat` division would silently return 0). -/
def pydiv (a b : Nat) : Except PyError Nat :=
  if b = 0 then Except.error PyError.zeroDivision else Except.ok (a / b)

/-- Python list slicing `l[a:b]` for `0 ≤ a ≤ b`. -/
def pySlice (l : List String) (a b : Nat) : List String :=
  (l.drop a).take (b - a)

/-- Lines 47-48: worker `i` is assigned the contiguous slice
`queries[i * chunk_size : chunk_size * (i + 1)]`. -/
def mkChunks (queries : List String) (num cs : Nat) : List (List String) :=
  (List.range num).map (fun i => pySlice queries (i * cs) (cs * (i + 1)))

/-- One phase of `nx_graph_to_memgraph_parallel` (lines 44-58):
materialize the statements, compute `chunk_size = len(queries) //
num_of_processes` (raising on zero workers), then run one
`_insert_queries` worker per chunk and join them all.  The traces are
reported in worker order, one per worker; `fail i` is worker `i`'s
failure oracle. -/
def runPhase (queries : List String) (num fuel : Nat) (fail : Nat → Nat → Bool) :
    Except PyError (List Ev) :=
  match pydiv queries.length num with
  | Except.error e => Except.error e
  | Except.ok cs =>
      Except.ok (((List.range num).map
        (fun i => _insert_queries fuel (pySlice queries (i * cs) (cs * (i + 1))) (fail i))).flatten)

/-- `nx_graph_to_memgraph_parallel` (lines 40-58): `num_of_processes =
cpu_count // 2`; the node phase runs and joins fully before the edge
phase starts (the `for queries_gen in [...]` loop with its join at the
end of each iteration).  The edge statements are generated from the
graph as mutated by the node pass.  Returns the events that happened
before returning or raising, and the outcome. -/
def nx_graph_to_memgraph_parallel (g : Graph) (cpu_count fuel : Nat)
    (fail : Nat → Nat → Nat → Bool) : List Ev × Except PyError Unit :=
  let num := cpu_count / 2
  match runPhase (_nx_nodes_to_cypher g).1 num fuel (fail 0) with
  | Except.error e => ([], Except.error e)
  | Except.ok tr1 =>
    match runPhase (_nx_edges_to_cypher (_nx_nodes_to_cypher g).2).1 num fuel (fail 1) with
    | Except.error e => (tr1, Except.error e)
    | Except.ok tr2 => (tr1 ++ tr2, Except.ok ())

/-!
A small-step interleaving semantics for the two-phase orchestrator,
used for the temporal phase-ordering property.  A state holds the
current phase (0 = node phase, 1 = edge phase), the remaining statement
lists of the current phase's workers, and the trace of executed
statements tagged with the phase they were executed in.  Workers of the
current phase step in any interleaving; the orchestrator may only
advance from the node phase to the edge phase when every node worker's
list is drained, which is exactly the `p.join()` barrier of lines
57-58: a worker's loop terminates only when its list is empty.
-/

structure PState where
  phase : Nat
  workers : List (List String)
  trace : List (Nat × String)
deriving DecidableEq

/-- One loop iteration of a worker as a relation: the worker pops the
last statement of its list and executes it; on success the statement is
gone, on a database error it is appended back (leaving the list
unchanged, since pop also takes from the tail). -/
inductive WStep : List String → String → List String → Prop where
  | ok (qs : List String) (q : String) : WStep (qs ++ [q]) q qs
  | requeue (qs : List String) (q : String) : WStep (qs ++ [q]) q (qs ++ [q])

/-- The orchestrator-level step relation, parametrized by the chunks of
the edge phase (computed before the phase starts from the node-mutated
graph). -/
inductive OStep (edgeChunks : List (List String)) : PState → PState → Prop where
  | work (ph : Nat) (ws : List (List String)) (tr : List (Nat × String))
      (i : Nat) (l0 l' : List String) (q : String)
      (hget : ws.get? i = some l0) (hw : WStep l0 q l') :
      OStep edgeChunks ⟨ph, ws, tr⟩ ⟨ph, ws.set i l', tr ++ [(ph, q)]⟩
  | advance (ws : List (List String)) (tr : List (Nat × String))
      (h : ∀ l ∈ ws, l = []) :
      OStep edgeChunks ⟨0, ws, tr⟩ ⟨1, edgeChunks, tr⟩

/-- The initial state of a run on graph `g` with the given CPU count:
node phase, node chunks partitioned as in lines 44-48, empty trace. -/
def initState (g : Graph) (cpu_count : Nat) : PState :=
  ⟨0,
   mkChunks (_nx_nodes_to_cypher g).1 (cpu_count / 2)
     ((_nx_nodes_to_cypher g).1.length / (cpu_count / 2)),
   []⟩

/-- The edge-phase chunks for a run on graph `g`: the edge statements
are generated from the node-mutated graph and partitioned the same
way. -/
def edgeChunksOf (g : Graph) (cpu_count : Nat) : List (List String) :=
  mkChunks (_nx_edges_to_cypher (_nx_nodes_to_cypher g).2).1 (cpu_count / 2)
    ((_nx_edges_to_cypher (_nx_nodes_to_cypher g).2).1.length / (cpu_count / 2))

/-- States reachable by the parallel run on `g`. -/
def Reachable (g : Graph) (cpu_count : Nat) : PState → Prop :=
  Relation.ReflTransGen (OStep (edgeChunksOf g cpu_count)) (initState g cpu_count)

/-! Dictionary lemmas. -/

theorem dictGet?_append (d1 d2 : Dict) (k : String) :
    dictGet? (d1 ++ d2) k = (dictGet? d1 k).or (dictGet? d2 k) := by
  unfold dictGet?
  rw [List.find?_append]
  cases d1.find? (fun kv => kv.1 == k) <;> simp

theorem dictGet?_filter_self (d : Dict) (s : String) :
    dictGet? (d.filter (fun kv => !(kv.1 == s))) s = none := by
  induction d with
  | nil => rfl
  | cons kv d ih =>
    cases hb : kv.1 == s with
    | true =>
      rw [List.filter_cons]
      simp only [hb, Bool.not_true, Bool.false_eq_true, if_false]
      exact ih
    | false =>
      rw [List.filter_cons]
      simp only [hb, Bool.not_false, if_true, dictGet?, List.find?_cons]
      simp only [dictGet?] at ih
      exact ih

theorem dictGet?_filter_ne (d : Dict) (s k : String) (h : (k == s) = false) :
    dictGet? (d.filter (fun kv => !(kv.1 == s))) k = dictGet? d k := by
  induction d with
  | nil => rfl
  | cons kv d ih =>
    cases hb : kv.1 == s with
    | true =>
      have hk : (kv.1 == k) = false := by
        have h1 : kv.1 = s := by simpa using hb
        have h2 : ¬(k = s) := by simpa using h
        simp [h1]
        exact fun hks => h2 hks.symm
      simp [List.filter_cons, hb, dictGet?, List.find?_cons, hk] at ih ⊢
      exact ih
    | false =>
      cases hk : kv.1 == k with
      | true => simp [List.filter_cons, hb, dictGet?, List.find?_cons, hk]
      | false =>
        simp [List.filter_cons, hb, dictGet?, List.find?_cons, hk] at ih ⊢
        exact ih

theorem dictContains_false (d : Dict) (k : String) (h : dictContains d k = false) :
    dictGet? d k = none := by
  unfold dictContains at h
  cases hg : dictGet? d k with
  | none => rfl
  | some v => rw [hg] at h; simp at h

theorem dictSet_new (d : Dict) (k : String) (v : Value) (h : dictContains d k = false) :
    dictSet d k v = d ++ [(k, v)] := by
  simp [dictSet, h]

theorem dictGet?_single_same (k : String) (v : Value) : dictGet? [(k, v)] k = some v := by
  simp [dictGet?]

theorem dictGet?_single_ne (k k' : String) (v : Value) (h : ¬(k' = k)) :
    dictGet? [(k', v)] k = none := by
  simp [dictGet?, h]

theorem nodeProps_contains (i : Int) (d : Dict) (h : dictContains d ("id") = true) :
    nodeProps i d = d := by
  simp [nodeProps, h]

theorem nodeProps_new (i : Int) (d : Dict) (h : dictContains d ("id") = false) :
    nodeProps i d = d ++ [("id", Value.int i)] := by
  unfold nodeProps
  rw [h]
  simp [dictSet_new d _ _ h]

theorem dictGet?_nodeProps_id (i : Int) (d : Dict) :
    dictGet? (nodeProps i d) ("id") = some ((dictGet? d ("id")).getD (Value.int i)) := by
  cases h : dictContains d ("id") with
  | true =>
    obtain ⟨v, hv⟩ : ∃ v, dictGet? d ("id") = some v := by
      unfold dictContains at h
      exact Option.isSome_iff_exists.mp h
    simp [nodeProps_contains i d h, hv]
  | false =>
    have hn := dictContains_false d ("id") h
    rw [nodeProps_new i d h, dictGet?_append, hn, dictGet?_single_same]
    simp

theorem dictGet?_nodeProps_labels (i : Int) (d : Dict) :
    dictGet? (nodeProps i d) ("labels") = dictGet? d ("labels") := by
  cases h : dictContains d ("id") with
  | true => simp [nodeProps_contains i d h]
  | false =>
    rw [nodeProps_new i d h, dictGet?_append,
      dictGet?_single_ne _ _ _ (by decide)]
    cases dictGet? d ("labels") <;> simp

theorem Graph.ext' (a b : Graph) (h1 : a.nodes = b.nodes) (h2 : a.edges = b.edges) :
    a = b := by
  cases a; cases b; cases h1; cases h2; rfl

theorem dictContains_append_same (d : Dict) (k : String) (v : Value) :
    dictContains (d ++ [(k, v)]) k = true := by
  unfold dictContains
  rw [dictGet?_append]
  cases dictGet? d k <;> simp [dictGet?_single_same]

theorem nodeProps_idem (i : Int) (d : Dict) :
    nodeProps i (nodeProps i d) = nodeProps i d := by
  cases h : dictContains d ("id") with
  | true => rw [nodeProps_contains i d h, nodeProps_contains i d h]
  | false =>
    rw [nodeProps_new i d h,
      nodeProps_contains i _ (dictContains_append_same d ("id") (Value.int i))]

theorem create_node_idem (i : Int) (d : Dict) :
    _create_node i (nodeProps i d) = _create_node i d := by
  unfold _create_node nodeEncodedProps
  rw [nodeProps_idem]

theorem edgeEncodedProps_idem (d : Dict) :
    edgeEncodedProps (edgeEncodedProps d) = edgeEncodedProps d := by
  unfold edgeEncodedProps dictPop
  rw [List.filter_filter]
  simp

/-- C5: for every graph, node-statement generation yields exactly one
statement per node, in the graph's native iteration order, and the
property map handed to the encoder always carries an `id` entry whose
value is the node's `id` attribute when present and the node's own
identifier otherwise. -/
theorem claim_C5 (g : Graph) :
    ((_nx_nodes_to_cypher g).1).length = g.nodes.length
    ∧ (∀ j : Nat, ((_nx_nodes_to_cypher g).1).get? j
        = (g.nodes.get? j).map (fun p => (_create_node p.1 p.2).1))
    ∧ (∀ p ∈ g.nodes, dictGet? (nodeEncodedProps p.1 p.2) ("id")
        = some ((dictGet? p.2 ("id")).getD (Value.int p.1))) := by
  refine ⟨by simp [_nx_nodes_to_cypher], fun j => ?_, fun p _ => ?_⟩
  · simp [_nx_nodes_to_cypher, List.get?_map]
  · unfold nodeEncodedProps
    rw [dictGet?_filter_ne _ _ _ (by rfl)]
    exact dictGet?_nodeProps_id p.1 p.2

/-- Witness for C5 at a concrete node whose attributes lack `id`. -/
theorem claim_C5_witness :
    dictGet? (nodeEncodedProps 0 ([("name", Value.str ("Alice"))])) ("id")
      = some ((dictGet? ([("name", Value.str ("Alice"))]) ("id")).getD (Value.int 0)) :=
  (claim_C5 ⟨[(0, [("name", Value.str ("Alice"))])], []⟩).2.2
    (0, [("name", Value.str ("Alice"))]) (by simp)

/-- C6: for every edge (u, v), the generated statement matches the
endpoints by the `labels` attribute stored on nodes u and v at
generation time (with the empty fragment when absent) together with the
endpoints' INTERNAL graph identifiers — not their logical ids: line 118
interpolates `from_id`/`to_id` (the loop variables `n1`, `n2`), never
the `id` attribute.  The two coincide exactly when the endpoint carries
no explicit `id` attribute, since the node is then created under its
own identifier (last conjunct).  Relationship type is the edge's `type`
attribute, or `"TO"` when absent.  Conjuncts: the statement template
with the internal identifiers, the relationship-type lookup unfolded,
generation in edge-iteration order, absent labels encode to the empty
fragment, the node pass's id injection leaves the `labels` attribute
untouched, the spec's Person/City example evaluated, and the
coincidence condition for endpoints without an explicit `id`. -/
theorem claim_C6_amended (g : Graph) :
    (∀ e ∈ g.edges,
      (edgeStep g e).1 =
        "MATCH (n" ++ to_cypher_labels (dictGet (g.nodeAttrs e.1) ("labels") (Value.str ("")))
          ++ " \x7bid: " ++ toString e.1 ++ "\x7d), (m"
          ++ to_cypher_labels (dictGet (g.nodeAttrs e.2.1) ("labels") (Value.str ("")))
          ++ " \x7bid: " ++ toString e.2.1
          ++ "\x7d) CREATE (n)-[" ++ to_cypher_labels (edgeType e.2.2) ++ " "
          ++ to_cypher_properties (edgeEncodedProps e.2.2) ++ "]->(m);"
      ∧ edgeType e.2.2 = (dictGet? e.2.2 ("type")).getD (Value.str ("TO")))
    ∧ (∀ j : Nat, ((_nx_edges_to_cypher g).1).get? j
        = (g.edges.get? j).map (fun e => (edgeStep g e).1))
    ∧ (∀ d : Dict, dictGet? d ("labels") = none
        → to_cypher_labels (dictGet d ("labels") (Value.str (""))) = "")
    ∧ (∀ (i : Int) (d : Dict), dictGet? (nodeProps i d) ("labels") = dictGet? d ("labels"))
    ∧ (edgeStep
        ⟨[(0, [("labels", Value.str ("Person"))]), (1, [("labels", Value.str ("City"))])],
         [(0, 1, [("type", Value.str ("LIVES_IN"))])]⟩
        (0, 1, [("type", Value.str ("LIVES_IN"))])).1
      = "MATCH (n:Person \x7bid: 0\x7d), (m:City \x7bid: 1\x7d) CREATE (n)-[:LIVES_IN ]->(m);"
    ∧ (∀ (u : Int) (d : Dict), dictGet? d ("id") = none
        → dictGet? (nodeEncodedProps u d) ("id") = some (Value.int u)) := by
  refine ⟨fun e _ => ⟨rfl, rfl⟩, fun j => ?_, fun d h => ?_, dictGet?_nodeProps_labels, rfl,
    fun u d h => ?_⟩
  · simp [_nx_edges_to_cypher, List.get?_map]
  · simp [dictGet, h, to_cypher_labels]
  · unfold nodeEncodedProps
    rw [dictGet?_filter_ne _ _ _ (by rfl), dictGet?_nodeProps_id, h]
    rfl

/-- The graph refuting C6 as stated: node 0 carries an explicit logical
id (`id = 5`) that differs from its internal identifier 0. -/
def exampleGraphC6 : Graph :=
  ⟨[(0, [("labels", Value.str ("Person")), ("id", Value.int 5)]),
    (1, [("labels", Value.str ("City"))])],
   [(0, 1, [("type", Value.str ("LIVES_IN"))])]⟩

/-- C6 is false as stated: the match clause uses the internal graph
identifiers, not the logical ids.  On `exampleGraphC6`, node 0's
logical id is 5 and the node-creation statement writes `\x7bid: 5\x7d`,
but the edge statement matches it with `\x7bid: 0\x7d` (and not with
`\x7bid: 5\x7d` as the claim requires), so a node with an explicit `id`
attribute is created under one id and matched under another. -/
theorem claim_C6_counterexample :
    (edgeStep exampleGraphC6 (0, 1, [("type", Value.str ("LIVES_IN"))])).1
      = "MATCH (n:Person \x7bid: 0\x7d), (m:City \x7bid: 1\x7d) CREATE (n)-[:LIVES_IN ]->(m);"
    ∧ (dictGet? (Graph.nodeAttrs exampleGraphC6 0) ("id")).getD (Value.int 0) = Value.int 5
    ∧ (_create_node 0 ([("labels", Value.str ("Person")), ("id", Value.int 5)])).1
      = "CREATE (:Person \x7bid: 5\x7d);"
    ∧ "MATCH (n:Person \x7bid: 0\x7d), (m:City \x7bid: 1\x7d) CREATE (n)-[:LIVES_IN ]->(m);"
      ≠ "MATCH (n:Person \x7bid: 5\x7d), (m:City \x7bid: 1\x7d) CREATE (n)-[:LIVES_IN ]->(m);" :=
  ⟨rfl, rfl, rfl, by decide⟩

/-- Witness for C6 at the spec's Person/City example edge. -/
theorem claim_C6_witness :
    edgeType ([("type", Value.str ("LIVES_IN"))])
      = (dictGet? ([("type", Value.str ("LIVES_IN"))]) ("type")).getD (Value.str ("TO")) :=
  ((claim_C6_amended
      ⟨[(0, [("labels", Value.str ("Person"))]), (1, [("labels", Value.str ("City"))])],
       [(0, 1, [("type", Value.str ("LIVES_IN"))])]⟩).1
    (0, 1, [("type", Value.str ("LIVES_IN"))]) (by simp)).2

/-- C7: the property map fed to the encoder never contains the reserved
`labels` key for a node statement, nor the reserved `type` key for an
edge statement (those keys are consumed for label and relationship-type
encoding). -/
theorem claim_C7 (nxId : Int) (nprops eprops : Dict) :
    dictGet? (nodeEncodedProps nxId nprops) ("labels") = none
    ∧ dictGet? (edgeEncodedProps eprops) ("type") = none :=
  ⟨dictGet?_filter_self (nodeProps nxId nprops) ("labels"),
   dictGet?_filter_self eprops ("type")⟩

/-- C4 (amended): statement generation is NOT side-effect free — it
writes `id` into node attribute dicts and removes `type` from edge
attribute dicts in place.  What does hold: a second full generation
pass produces the same node statements as the first, and the graph
left behind by the first pass is a fixed point of generation, so the
second and all later invocations agree with each other (only the first
invocation can differ, on edges that carried a `type` attribute). -/
theorem claim_C4_amended (g : Graph) :
    (_nx_nodes_to_cypher (nx_to_cypher g).2).1 = (_nx_nodes_to_cypher g).1
    ∧ (nx_to_cypher (nx_to_cypher g).2).2 = (nx_to_cypher g).2 := by
  constructor
  · simp only [nx_to_cypher, _nx_edges_to_cypher, _nx_nodes_to_cypher, List.map_map]
    apply List.map_congr_left
    intro p _
    show (_create_node p.1 ((_create_node p.1 p.2).2)).1 = (_create_node p.1 p.2).1
    rw [show (_create_node p.1 p.2).2 = nodeProps p.1 p.2 from rfl, create_node_idem]
  · apply Graph.ext'
    · simp only [nx_to_cypher, _nx_edges_to_cypher, _nx_nodes_to_cypher, List.map_map]
      apply List.map_congr_left
      intro p _
      show (p.1, nodeProps p.1 (nodeProps p.1 p.2)) = (p.1, nodeProps p.1 p.2)
      rw [nodeProps_idem]
    · simp only [nx_to_cypher, _nx_edges_to_cypher, _nx_nodes_to_cypher, List.map_map]
      apply List.map_congr_left
      intro e _
      show (e.1, e.2.1, edgeEncodedProps (edgeEncodedProps e.2.2))
        = (e.1, e.2.1, edgeEncodedProps e.2.2)
      rw [edgeEncodedProps_idem]

/-- C4 is false as stated: on the Person/City graph whose edge carries
`type = "LIVES_IN"`, the first generation pass pops `type` from the
edge's attribute dict, so the graph is changed and the second pass
emits the edge with relationship type `TO` instead of `LIVES_IN`. -/
theorem claim_C4_counterexample :
    ¬ ((nx_to_cypher (nx_to_cypher
          (⟨[(0, [("labels", Value.str ("Person"))]), (1, [("labels", Value.str ("City"))])],
            [(0, 1, [("type", Value.str ("LIVES_IN"))])]⟩ : Graph)).2).1
        = (nx_to_cypher
          (⟨[(0, [("labels", Value.str ("Person"))]), (1, [("labels", Value.str ("City"))])],
            [(0, 1, [("type", Value.str ("LIVES_IN"))])]⟩ : Graph)).1
      ∧ (nx_to_cypher
          (⟨[(0, [("labels", Value.str ("Person"))]), (1, [("labels", Value.str ("City"))])],
            [(0, 1, [("type", Value.str ("LIVES_IN"))])]⟩ : Graph)).2
        = ⟨[(0, [("labels", Value.str ("Person"))]), (1, [("labels", Value.str ("City"))])],
            [(0, 1, [("type", Value.str ("LIVES_IN"))])]⟩) := by
  decide

/-! Worker-loop lemmas. -/

theorem pyPop_append (qs : List String) (q : String) :
    pyPop (qs ++ [q]) = some (q, qs) := by
  induction qs with
  | nil => rfl
  | cons a t ih =>
    cases t with
    | nil => simp [pyPop]
    | cons b t2 =>
      simp only [List.cons_append] at ih ⊢
      rw [pyPop, ih]

theorem insertLoop_zero (fail : Nat → Bool) (queries : List String) (k : Nat) :
    insertLoop fail 0 queries k = ([], queries) := rfl

theorem insertLoop_nil (fail : Nat → Bool) (fuel k : Nat) :
    insertLoop fail fuel [] k = ([], []) := by
  cases fuel <;> rfl

theorem insertLoop_fail_step (fail : Nat → Bool) (fuel k : Nat) (qs : List String) (q : String)
    (h : fail k = true) :
    insertLoop fail (fuel + 1) (qs ++ [q]) k
      = (Ev.exec q :: Ev.warn q :: (insertLoop fail fuel (qs ++ [q]) (k + 1)).1,
         (insertLoop fail fuel (qs ++ [q]) (k + 1)).2) := by
  rw [insertLoop, pyPop_append]
  simp [h]

theorem insertLoop_ok_step (fail : Nat → Bool) (fuel k : Nat) (qs : List String) (q : String)
    (h : fail k = false) :
    insertLoop fail (fuel + 1) (qs ++ [q]) k
      = (Ev.exec q :: Ev.commit :: (insertLoop fail fuel qs (k + 1)).1,
         (insertLoop fail fuel qs (k + 1)).2) := by
  rw [insertLoop, pyPop_append]
  simp [h]

theorem insertLoop_noFail_rev (rs : List String) :
    ∀ k, insertLoop (fun _ => false) rs.length rs.reverse k
      = ((rs.map (fun q => [Ev.exec q, Ev.commit])).flatten, []) := by
  induction rs with
  | nil => intro k; rfl
  | cons q rest ih =>
    intro k
    rw [List.length_cons, List.reverse_cons,
      insertLoop_ok_step (fun _ => false) rest.length k rest.reverse q rfl,
      ih (k + 1)]
    rfl

/-- C8 (amended): the per-worker loader executes its assigned
statements in REVERSE list order — `queries.pop()` takes from the tail
— on a single connection, committing after each successful execution
(no commit follows a failed execution; the statement is retried
instead). -/
theorem claim_C8_amended (queries : List String) :
    _insert_queries queries.length queries (fun _ => false)
      = Ev.connect :: ((queries.reverse.map (fun q => [Ev.exec q, Ev.commit])).flatten) := by
  have h := insertLoop_noFail_rev queries.reverse 0
  rw [List.reverse_reverse, List.length_reverse] at h
  rw [_insert_queries, h]

/-- C8 is false as stated: on the chunk `["a", "b"]` with no failures,
the first statement attempted is `"b"` (the last of the list), not the
first. -/
theorem claim_C8_counterexample :
    execSeq (_insert_queries 2 (["a", "b"]) (fun _ => false)) = ["b", "a"]
    ∧ (["b", "a"] : List String) ≠ ["a", "b"] :=
  ⟨rfl, by decide⟩

/-- C1 (amended): when execution of a statement fails with a
database-reported error, the statement is re-queued at the tail of the
remaining list, a warning is logged, the error is not surfaced (the
loop just continues), and — because the worker also pops from the tail
— the very next statement attempted is the failed statement itself
again, not a different one: after a failed iteration the remaining list
is unchanged, and the next execution event is the same statement. -/
theorem claim_C1_amended (qs : List String) (q : String) (fail : Nat → Bool) (k n : Nat)
    (h : fail k = true) :
    insertLoop fail 1 (qs ++ [q]) k = ([Ev.exec q, Ev.warn q], qs ++ [q])
    ∧ (insertLoop fail (n + 2) (qs ++ [q]) k).1.take 3
      = [Ev.exec q, Ev.warn q, Ev.exec q] := by
  constructor
  · rw [insertLoop_fail_step fail 0 k qs q h, insertLoop_zero]
  · rw [insertLoop_fail_step fail (n + 1) k qs q h]
    cases hf : fail (k + 1) with
    | true => rw [insertLoop_fail_step fail n (k + 1) qs q hf]; rfl
    | false => rw [insertLoop_ok_step fail n (k + 1) qs q hf]; rfl

/-- Witness for C1 at the concrete chunk `["a", "b"]` whose first
attempted statement (`"b"`) fails. -/
theorem claim_C1_witness :
    ((fun _ : Nat => true) 0 = true)
    ∧ (insertLoop (fun _ => true) 1 (["a"] ++ ["b"]) 0
        = ([Ev.exec ("b"), Ev.warn ("b")], ["a"] ++ ["b"])
      ∧ (insertLoop (fun _ => true) (0 + 2) (["a"] ++ ["b"]) 0).1.take 3
        = [Ev.exec ("b"), Ev.warn ("b"), Ev.exec ("b")]) :=
  ⟨rfl, claim_C1_amended ["a"] ("b") (fun _ => true) 0 0 rfl⟩

/-- C1 is false as stated: on the chunk `["a", "b"]`, when the first
execution of `"b"` fails, the next statement executed is `"b"` again —
the worker does not execute the remaining different statement `"a"`
before re-attempting the failed one (that would give the sequence
`["b", "a", "b"]`; the code gives `["b", "b", "a"]`). -/
theorem claim_C1_counterexample :
    execSeq (_insert_queries 3 (["a", "b"]) (fun k => k == 0)) = ["b", "b", "a"]
    ∧ (["b", "b", "a"] : List String) ≠ ["b", "a", "b"] :=
  ⟨rfl, by decide⟩

/-! Partitioning and orchestrator lemmas. -/

theorem chunk_length (queries : List String) (W i : Nat) (hi : i < W) :
    (pySlice queries (i * (queries.length / W)) ((queries.length / W) * (i + 1))).length
      = queries.length / W := by
  have hile : i * (queries.length / W) + queries.length / W ≤ queries.length := by
    have h1 : (i + 1) * (queries.length / W) ≤ W * (queries.length / W) :=
      Nat.mul_le_mul_right (queries.length / W) hi
    have h2 : W * (queries.length / W) ≤ queries.length := by
      rw [Nat.mul_comm]
      exact Nat.div_mul_le_self _ _
    calc i * (queries.length / W) + queries.length / W
        = (i + 1) * (queries.length / W) := (Nat.succ_mul i _).symm
      _ ≤ W * (queries.length / W) := h1
      _ ≤ queries.length := h2
  have hmul : (queries.length / W) * (i + 1)
      = i * (queries.length / W) + queries.length / W := by ring
  simp [pySlice, hmul]
  omega

theorem sum_replicate_nat (n c : Nat) : (List.replicate n c).sum = n * c := by
  induction n with
  | zero => simp
  | succ m ih =>
    rw [List.replicate_succ, List.sum_cons, ih, Nat.succ_mul]
    omega

/-- C2: the partitioner computes `chunk_size = L // W`, hands worker
`i` the slice `queries[i * chunk_size : chunk_size * (i + 1)]`, the
chunk lengths sum to `(L // W) * W`, and that sum is strictly below `L`
whenever `W` does not divide `L` — the remainder statements belong to
no chunk. -/
theorem claim_C2 (queries : List String) (W : Nat) (hW : 1 ≤ W) :
    (∀ i, i < W → (mkChunks queries W (queries.length / W)).get? i
        = some (pySlice queries (i * (queries.length / W)) ((queries.length / W) * (i + 1))))
    ∧ ((mkChunks queries W (queries.length / W)).map List.length).sum
        = (queries.length / W) * W
    ∧ (queries.length % W ≠ 0 → (queries.length / W) * W < queries.length) := by
  refine ⟨fun i hi => ?_, ?_, fun hm => ?_⟩
  · rw [mkChunks, List.get?_map, List.get?_range hi]
    rfl
  · have hrep : ((mkChunks queries W (queries.length / W)).map List.length)
        = List.replicate W (queries.length / W) := by
      rw [List.eq_replicate_iff]
      refine ⟨by simp [mkChunks], fun b hb => ?_⟩
      simp only [mkChunks, List.map_map, List.mem_map, List.mem_range] at hb
      obtain ⟨i, hi, rfl⟩ := hb
      exact chunk_length queries W i hi
    rw [hrep, sum_replicate_nat, Nat.mul_comm]
  · have hd := Nat.div_add_mod queries.length W
    have hc : (queries.length / W) * W = W * (queries.length / W) := Nat.mul_comm _ _
    omega

/-- Witness for C2: ten-ish statements over three workers (here four
statements, three workers: 4 % 3 ≠ 0, so one statement is dropped). -/
theorem claim_C2_witness :
    (1 ≤ 3)
    ∧ ((["a", "b", "c", "d"] : List String).length / 3) * 3
        < (["a", "b", "c", "d"] : List String).length :=
  ⟨by decide, (claim_C2 ["a", "b", "c", "d"] 3 (by decide)).2.2 (by decide)⟩

theorem insert_queries_nil (fuel : Nat) (fail : Nat → Bool) :
    _insert_queries fuel [] fail = [Ev.connect] := by
  rw [_insert_queries, insertLoop_nil]

theorem flatten_replicate_singleton (n : Nat) (a : Ev) :
    (List.replicate n [a]).flatten = List.replicate n a := by
  induction n with
  | zero => rfl
  | succ m ih =>
    rw [List.replicate_succ, List.flatten_cons, ih, List.replicate_succ]
    rfl

/-- C9: when the detected CPU count is 1, `num_of_processes` is
`1 // 2 = 0` and the node phase's `chunk_size` computation divides by
zero, so the call raises `ZeroDivisionError` for every graph — before
any connection is opened or any statement executed (the trace is
empty). -/
theorem claim_C9 (g : Graph) (fuel : Nat) (fail : Nat → Nat → Nat → Bool) :
    nx_graph_to_memgraph_parallel g 1 fuel fail
      = ([], Except.error PyError.zeroDivision) := rfl

/-- C10: a phase whose statement list has length `0 < L < W` computes
`chunk_size = 0`, assigns every worker the empty slice, executes no
statement of the phase (each worker only opens its connection), and the
parallel loader as a whole still returns normally whenever the worker
count is nonzero. -/
theorem claim_C10 (queries : List String) (num fuel : Nat) (fail : Nat → Nat → Bool)
    (h0 : 0 < queries.length) (hW : queries.length < num) :
    queries.length / num = 0
    ∧ mkChunks queries num (queries.length / num) = List.replicate num []
    ∧ runPhase queries num fuel fail = Except.ok (List.replicate num Ev.connect)
    ∧ (∀ (g : Graph) (cpu fuel2 : Nat) (fail2 : Nat → Nat → Nat → Bool),
        1 ≤ cpu / 2 → (nx_graph_to_memgraph_parallel g cpu fuel2 fail2).2 = Except.ok ()) := by
  have hcs : queries.length / num = 0 := Nat.div_eq_of_lt hW
  have hnum : ¬(num = 0) := by omega
  refine ⟨hcs, ?_, ?_, ?_⟩
  · rw [hcs]
    simp [mkChunks, pySlice]
  · simp [runPhase, pydiv, hnum, hcs, pySlice, insert_queries_nil,
      flatten_replicate_singleton]
  · intro g cpu fuel2 fail2 hcpu
    have h2 : ¬(cpu / 2 = 0) := by omega
    simp [nx_graph_to_memgraph_parallel, runPhase, pydiv, h2]

/-- Witness for C10: one statement, two workers. -/
theorem claim_C10_witness :
    (0 < (["a"] : List String).length)
    ∧ ((["a"] : List String).length < 2)
    ∧ runPhase ["a"] 2 5 (fun _ _ => false) = Except.ok (List.replicate 2 Ev.connect) :=
  ⟨by decide, by decide, (claim_C10 ["a"] 2 5 (fun _ _ => false) (by decide) (by decide)).2.2.1⟩

/-! Phase ordering. -/

/-- Invariant of reachable states: the phase is 0 or 1, in phase 0 the
trace holds only node-phase events, and the trace always splits into a
node-phase segment followed by an edge-phase segment. -/
theorem reachable_inv (g : Graph) (cpu_count : Nat) (s : PState)
    (h : Reachable g cpu_count s) :
    s.phase ≤ 1
    ∧ (s.phase = 0 → ∀ e ∈ s.trace, e.1 = 0)
    ∧ ∃ t0 t1, s.trace = t0 ++ t1 ∧ (∀ e ∈ t0, e.1 = 0) ∧ (∀ e ∈ t1, e.1 = 1) := by
  induction h with
  | refl =>
    exact ⟨by simp [initState], fun _ e he => by simp [initState] at he,
      [], [], by simp [initState], by simp, by simp⟩
  | tail _ hstep ih =>
    obtain ⟨hph, h0, t0, t1, hsplit, ht0, ht1⟩ := ih
    cases hstep with
    | work ph ws tr i l0 l' q hget hw =>
      simp only at hph h0 hsplit ht0 ht1 ⊢
      have hph01 : ph = 0 ∨ ph = 1 := by omega
      cases hph01 with
      | inl hz =>
        subst hz
        refine ⟨by omega, fun _ e he => ?_, tr ++ [(0, q)], [], by simp, fun e he => ?_, by simp⟩
        · rcases List.mem_append.mp he with h1 | h1
          · exact h0 rfl e h1
          · simp at h1; simp [h1]
        · rcases List.mem_append.mp he with h1 | h1
          · exact h0 rfl e h1
          · simp at h1; simp [h1]
      | inr ho =>
        subst ho
        refine ⟨by omega, fun hc => by simp at hc, t0, t1 ++ [(1, q)], ?_, ht0, fun e he => ?_⟩
        · rw [hsplit, List.append_assoc]
        · rcases List.mem_append.mp he with h1 | h1
          · exact ht1 e h1
          · simp at h1; simp [h1]
    | advance ws tr hws =>
      simp only at hph h0 hsplit ht0 ht1 ⊢
      exact ⟨by omega, fun hc => by simp at hc, t0, t1, hsplit, ht0, ht1⟩

/-- C3: in any reachable state of the parallel run, the trace of
executed statements is a node-phase segment followed by an edge-phase
segment — no node-phase execution ever follows an edge-phase execution,
because the orchestrator can enter the edge phase only once every node
worker's list is drained (the join barrier). -/
theorem claim_C3 (g : Graph) (cpu_count : Nat) (s : PState)
    (h : Reachable g cpu_count s) :
    ∃ t0 t1, s.trace = t0 ++ t1 ∧ (∀ e ∈ t0, e.1 = 0) ∧ (∀ e ∈ t1, e.1 = 1) :=
  (reachable_inv g cpu_count s h).2.2

/-- Witness for C3: the initial state of a run on a one-node graph with
two CPUs is reachable. -/
theorem claim_C3_witness :
    ∃ t0 t1, (initState (⟨[(0, [])], []⟩ : Graph) 2).trace = t0 ++ t1
      ∧ (∀ e ∈ t0, e.1 = 0) ∧ (∀ e ∈ t1, e.1 = 1) :=
  claim_C3 (⟨[(0, [])], []⟩ : Graph) 2 _ Relation.ReflTransGen.refl

end GqlAlchemy
